import Mathlib

/-!
Shallow embedding of the cht_backend chat/AI-takeover server.

Sources embedded here:
- `src/functions/storeResources.js` (text chunking, Qdrant collection management)
- `src/unnamed/part_003` = `aiResponse.js` (retrieval-augmented response generation)
- `src/functions/storeVecDb.js` = `aiChatHandler.js` (AI takeover state machine)
- `src/index.js` (session router / socket event handlers, AI-integrated version)

Modelling conventions:
- JS strings processed by the chunker are modelled as `List α` (the code never
  inspects characters, only slices by index).
- MongoDB collections are modelled as association lists keyed by id; `updateOne`
  with `upsert: true` is modelled by an upsert on the association list.  The
  `createdAt` bookkeeping field is not modelled.
- The external services (OpenAI embeddings/completions, Qdrant) are modelled as
  an explicit environment (`AiEnv`): oracles for embedding and completion, and
  the Qdrant collection store as an association list.
- All handlers are modelled as atomic state transitions, following the single
  event-loop model stated by the design (one logical actor per event).
- `Date.now()` is modelled by an explicit `now : Nat` argument (all reads of the
  clock inside a single handler are identified).
-/

/-! ### Association-list primitives (model of keyed Mongo collections / Maps) -/

/-- Lookup in an association list (model of `findOne {key}` / `Map.get`). -/
def alookup {β : Type} (db : List (String × β)) (k : String) : Option β :=
  match db with
  | [] => none
  | (k2, v) :: rest => if k2 = k then some v else alookup rest k

/-- Upsert in an association list: replace the value at `k`, or append a new
entry (model of `updateOne({key}, ..., {upsert: true})` / `Map.set`). -/
def aupsert {β : Type} (db : List (String × β)) (k : String) (v : β) :
    List (String × β) :=
  match db with
  | [] => [(k, v)]
  | (k2, v2) :: rest =>
      if k2 = k then (k2, v) :: rest else (k2, v2) :: aupsert rest k v

/-- Remove the entry at `k` (model of `Map.delete` / collection drop). -/
def aerase {β : Type} (db : List (String × β)) (k : String) :
    List (String × β) :=
  match db with
  | [] => []
  | (k2, v2) :: rest => if k2 = k then rest else (k2, v2) :: aerase rest k

/-! ### Text chunking (`splitTextIntoChunks`, storeResources.js lines 369-380) -/

/-- JS `text.slice(start, end)` on a sequence, for `0 <= start <= end`. -/
def jsSlice {α : Type} (text : List α) (s e : Nat) : List α :=
  (text.drop s).take (e - s)

/-- Fuel-indexed embedding of the `while (start < text.length)` loop of
`splitTextIntoChunks`.  Each iteration pushes
`text.slice(start, min(start + chunkSize, text.length))` and advances `start`
by `chunkSize - overlap` (truncated subtraction models the non-positive-step
case, where the JS loop never terminates; the result is then `none` for every
fuel).  `some chunks` means the loop terminates with result `chunks`. -/
def splitChunksFuel {α : Type} (text : List α) (chunkSize overlap : Nat) :
    Nat → Nat → Option (List (List α))
  | 0, start => if start < text.length then none else some []
  | fuel + 1, start =>
      if start < text.length then
        match splitChunksFuel text chunkSize overlap fuel
            (start + (chunkSize - overlap)) with
        | some rest =>
            some (jsSlice text start (min (start + chunkSize) text.length)
              :: rest)
        | none => none
      else some []

/-- `splitTextIntoChunks(text, chunkSize, overlap)`: run the loop from
`start = 0`; `text.length + 1` fuel is enough whenever `overlap < chunkSize`
(the loop runs at most `text.length` iterations since `start` strictly
increases). -/
def splitTextIntoChunks {α : Type} (text : List α) (chunkSize overlap : Nat) :
    List (List α) :=
  (splitChunksFuel text chunkSize overlap (text.length + 1) 0).getD []

/-- Number of loop iterations performed from position `start`:
zero if `start >= L`, else `1 + (further iterations from start + step)`,
in closed form. -/
def numChunksFrom (L step start : Nat) : Nat :=
  if start < L then (L - start - 1) / step + 1 else 0

/-- The chunk produced at loop position `s`. -/
def chunkAt {α : Type} (text : List α) (chunkSize s : Nat) : List α :=
  jsSlice text s (min (s + chunkSize) text.length)

/-! ### AI takeover state machine (aiChatHandler.js) -/

/-- The `ai_chat_state` Mongo collection: one record per user holding
`aiActive` (the `lastUpdated` timestamp carries no behaviour and is not
modelled). -/
def AiStateDb : Type := List (String × Bool)

/-- `shouldAiRespond(userId)` (aiChatHandler.js lines 55-72): no record means
the AI is active by default; otherwise return `state.aiActive !== false`,
which for the boolean field is the field itself.  The `!aiStateCollection`
and catch branches (DB unavailable) also return `true`; the model assumes a
connected store, which only removes those fail-open branches. -/
def shouldAiRespond (db : AiStateDb) (userId : String) : Bool :=
  match alookup db userId with
  | none => true
  | some aiActive => aiActive

/-- `setAiState(userId, isActive)` (lines 79-97): upsert the record. -/
def setAiState (db : AiStateDb) (userId : String) (isActive : Bool) :
    AiStateDb :=
  aupsert db userId isActive

/-- `deactivateAiForUser` (lines 103-105). -/
def deactivateAiForUser (db : AiStateDb) (userId : String) : AiStateDb :=
  setAiState db userId false

/-- `activateAiForUser` (lines 111-113). -/
def activateAiForUser (db : AiStateDb) (userId : String) : AiStateDb :=
  setAiState db userId true

/-- `handleAdminMessage(userId)` (lines 219-222): deactivate the AI. -/
def handleAdminMessage (db : AiStateDb) (userId : String) : AiStateDb :=
  deactivateAiForUser db userId

/-- `resetAiForUser(userId)` (lines 228-231): reactivate the AI. -/
def resetAiForUser (db : AiStateDb) (userId : String) : AiStateDb :=
  activateAiForUser db userId

/-! ### Knowledge store environment (Qdrant) and retrieval
(storeResources.js, aiResponse.js) -/

/-- A record stored in an owner's knowledge collection.  The embedding vector
is opaque data produced by the external embedding service; relevance scores
are opaque provider data (modelled as `Int`). -/
structure KPoint where
  text : String
  sourceType : Option String
  fileName : Option String
  chunkIndex : Option Nat
deriving DecidableEq, Repr

/-- The Qdrant instance: named collections of stored points. -/
def QdrantSt : Type := List (String × List KPoint)

/-- Collection naming convention used throughout the code:
`owner_${ownerId}_knowledge`. -/
def collName (ownerId : String) : String :=
  "owner_" ++ ownerId ++ "_knowledge"

/-- Environment model of the provider: a k-NN `search` against a missing
collection fails with an error whose message contains `Not found` (Qdrant
returns HTTP 404 `Not found: Collection ... does not exist`); against an
existing collection it returns at most `limit` stored points.  The provider's
ranking is internal to the black-box service and is modelled as stored-order
truncation; the claims settled here depend only on the missing/empty cases. -/
def qdrantSearch (st : QdrantSt) (name : String) (limit : Nat) :
    Except String (List (KPoint × Int)) :=
  match alookup st name with
  | none => Except.error ("Not found: Collection " ++ name ++ " does not exist")
  | some pts => Except.ok ((pts.take limit).map (fun p => (p, 0)))

/-- Environment model of the provider: `deleteCollection` on a missing
collection returns `result: false` with HTTP 200 — it does not raise.  The
returned boolean reports whether a collection was actually removed. -/
def qdrantDeleteCollection (st : QdrantSt) (name : String) : Bool × QdrantSt :=
  ((alookup st name).isSome, aerase st name)

/-- Result object of `deleteOwnerResources`. -/
structure DeleteResult where
  success : Bool
  collectionName : String
deriving DecidableEq, Repr

/-- `deleteOwnerResources(ownerId)` (storeResources.js lines 542-553): call
`deleteCollection` on the owner's collection and report success; any raised
error is propagated to the caller (`throw error`).  In the environment model
the provider call is total, so the catch branch is unreachable and the result
is always a success object. -/
def deleteOwnerResources (st : QdrantSt) (ownerId : String) :
    Except String (DeleteResult × QdrantSt) :=
  let res := qdrantDeleteCollection st (collName ownerId)
  Except.ok ({ success := true, collectionName := collName ownerId }, res.2)

/-- A retrieved context chunk as shaped by `searchOwnerKnowledge`
(aiResponse.js lines 73-81). -/
structure CtxChunk where
  text : String
  score : Int
  sourceType : Option String
  fileName : Option String
  chunkIndex : Option Nat
deriving DecidableEq, Repr

/-- A source reference in the final response object
(aiResponse.js lines 205-209). -/
structure SourceRef where
  fileName : Option String
  sourceType : Option String
  relevanceScore : Int
deriving DecidableEq, Repr

/-- A conversation message as read back for history: origin tag and text. -/
inductive Origin where
  | user
  | owner
  | ai
deriving DecidableEq, Repr

/-- A message object, covering the shapes pushed to conversations and emitted
on sockets throughout index.js and aiChatHandler.js (`from`, `text`, `ts`,
and the optional `userId`, `ownerId`, contact metadata, AI annotation and
error fields; absent JS fields are `none` / `false`). -/
structure Msg where
  origin : Origin
  text : String
  ts : Nat
  userId : Option String
  ownerId : Option String
  username : Option String
  useremail : Option String
  userphone : Option String
  contextUsed : Option Bool
  sources : Option (List SourceRef)
  error : Bool
deriving DecidableEq, Repr

/-- Which of the two system-instruction texts of `generateAiResponse`
(aiResponse.js lines 123-140) is used: the grounded instruction (knowledge
base context present) or the general-knowledge instruction. -/
inductive PromptBranch where
  | grounded
  | general
deriving DecidableEq, Repr

/-- Structured content of the system message built by `generateAiResponse`:
the chosen instruction branch, the labelled context chunks interpolated into
`contextString` (lines 108-114, as `(fileName, text)` pairs in order), and
the optional company-website postscript (lines 117-120).  The literal prompt
wording is fixed text fed to the black-box completion service; the system
message is represented by this, its full variable content. -/
structure SystemPrompt where
  branch : PromptBranch
  contextSources : List (Option String × String)
  website : Option String
deriving DecidableEq, Repr

/-- One history turn as mapped for the completion call (lines 143-146):
`role: msg.from === 'user' ? 'user' : 'assistant'` plus the text. -/
structure ChatTurn where
  isUser : Bool
  content : String
deriving DecidableEq, Repr

/-- The full completion request assembled by `generateAiResponse`
(lines 149-153): system message, last-10 history turns, current user
message. -/
structure CompletionRequest where
  system : SystemPrompt
  history : List ChatTurn
  current : String

/-- External-service environment for the retrieval-augmented responder:
the Qdrant collections, the embedding oracle (`generateEmbedding`, which may
fail), the completion oracle (the OpenAI chat call, which may fail), and the
`knowledgebase` Mongo collection mapping owners to their website URL. -/
structure AiEnv where
  collections : QdrantSt
  embed : String → Except String (List Int)
  complete : CompletionRequest → Except String String
  websites : List (String × String)

/-- JS `error.message.includes('Not found')`. -/
def containsNotFound (msg : String) : Bool :=
  decide ("Not found".toList <:+: msg.toList)

/-- `getOwnerWebsite(ownerId)` (aiResponse.js lines 38-50): look up
`companyWebsite` in the `knowledgebase` collection; absent record or any
error yields `null`. -/
def getOwnerWebsite (env : AiEnv) (ownerId : String) : Option String :=
  alookup env.websites ownerId

/-- The body of the `try` block of `searchOwnerKnowledge`: embed the query,
search the owner's collection, shape the hits. -/
def searchOwnerKnowledgeBody (env : AiEnv) (ownerId query : String)
    (limit : Nat) : Except String (List CtxChunk) :=
  match env.embed query with
  | Except.error e => Except.error e
  | Except.ok _ =>
      match qdrantSearch env.collections (collName ownerId) limit with
      | Except.error e => Except.error e
      | Except.ok hits =>
          Except.ok (hits.map (fun h =>
            { text := h.1.text
              score := h.2
              sourceType := h.1.sourceType
              fileName := h.1.fileName
              chunkIndex := h.1.chunkIndex }))

/-- `searchOwnerKnowledge(ownerId, query, limit)` (aiResponse.js lines 59-90):
run the body; an error whose message contains `Not found` (no knowledge base
for this owner) is converted to the empty result list, any other error is
rethrown. -/
def searchOwnerKnowledge (env : AiEnv) (ownerId query : String) (limit : Nat) :
    Except String (List CtxChunk) :=
  match searchOwnerKnowledgeBody env ownerId query limit with
  | Except.ok r => Except.ok r
  | Except.error e =>
      if containsNotFound e then Except.ok [] else Except.error e

/-- JS `list.slice(-n)`: the last `n` elements (the whole list when shorter). -/
def lastN {α : Type} (l : List α) (n : Nat) : List α :=
  l.drop (l.length - n)

/-- `generateAiResponse(userMessage, context, conversationHistory, websiteUrl)`
(aiResponse.js lines 100-181): build the system message (grounded when
`context.length > 0`, general otherwise, with the website postscript when
present), map the last 10 history messages to completion roles, and call the
completion service with system + history + current message.  The
`OPENAI_API_KEY` configuration guard is assumed satisfied (a configured
deployment); completion failure is the oracle's error. -/
def generateAiResponse (env : AiEnv) (userMessage : String)
    (context : List CtxChunk) (history : List Msg)
    (websiteUrl : Option String) : Except String String :=
  let system : SystemPrompt :=
    { branch := if context.isEmpty then PromptBranch.general
        else PromptBranch.grounded
      contextSources := context.map (fun c => (c.fileName, c.text))
      website := websiteUrl }
  let recentHistory := (lastN history 10).map (fun m =>
    (⟨decide (m.origin = Origin.user), m.text⟩ : ChatTurn))
  env.complete { system := system
                 history := recentHistory
                 current := userMessage }

/-- Result object of `getAiResponseWithContext` (aiResponse.js lines 201-210
and 218-224); `errorNote` is the explanatory `error` field attached on the
fallback path. -/
structure AiResult where
  response : String
  contextUsed : Bool
  websiteUrl : Option String
  sources : List SourceRef
  errorNote : Option String
deriving DecidableEq, Repr

/-- The `catch` branch of `getAiResponseWithContext` (lines 211-228): fetch
the website again, retry generation with empty context, and return a
`contextUsed=false` result with an explanatory error note; if the fallback
generation itself fails, surface `Failed to generate AI response`. -/
def aiFallback (env : AiEnv) (ownerId userMessage : String)
    (history : List Msg) : Except String AiResult :=
  let websiteUrl := getOwnerWebsite env ownerId
  match generateAiResponse env userMessage [] history websiteUrl with
  | Except.ok t =>
      Except.ok
        { response := t
          contextUsed := false
          websiteUrl := websiteUrl
          sources := []
          errorNote :=
            some "Could not access knowledge base, using general AI knowledge" }
  | Except.error _ => Except.error "Failed to generate AI response"

/-- `getAiResponseWithContext(ownerId, userMessage, conversationHistory)`
(aiResponse.js lines 190-229): fetch the owner website, search the knowledge
base (k = 3), generate the response, and return it with
`contextUsed = context.length > 0` and the shaped `sources`; any error in
that chain falls to the `catch` branch (`aiFallback`). -/
def getAiResponseWithContext (env : AiEnv) (ownerId userMessage : String)
    (history : List Msg) : Except String AiResult :=
  let websiteUrl := getOwnerWebsite env ownerId
  match searchOwnerKnowledge env ownerId userMessage 3 with
  | Except.ok context =>
      match generateAiResponse env userMessage context history websiteUrl with
      | Except.ok text =>
          Except.ok
            { response := text
              contextUsed := !context.isEmpty
              websiteUrl := websiteUrl
              sources := context.map (fun c =>
                { fileName := c.fileName
                  sourceType := c.sourceType
                  relevanceScore := c.score })
              errorNote := none }
      | Except.error _ => aiFallback env ownerId userMessage history
  | Except.error _ => aiFallback env ownerId userMessage history

/-! ### Conversation store and AI chat handler (aiChatHandler.js, index.js) -/

/-- An entry of the in-memory `metadataBuffer` (index.js line 42): contact
fields plus the optional owner assignment. -/
structure Meta where
  username : Option String
  useremail : Option String
  userphone : Option String
  ownerId : Option String
deriving DecidableEq, Repr

/-- A document of the `chats` Mongo collection: assigned owner, ordered
conversation, denormalized contact fields and last-seen time (`createdAt` is
bookkeeping and not modelled). -/
structure ChatDoc where
  ownerId : Option String
  conversation : List Msg
  username : Option String
  useremail : Option String
  userphone : Option String
  lastSeen : Option Nat
deriving DecidableEq, Repr

/-- The `chats` collection keyed by `userId`. -/
def ChatsDb : Type := List (String × ChatDoc)

/-- The document created by `$setOnInsert` when an update upserts a fresh
chat: empty conversation, no owner, no metadata. -/
def emptyChatDoc : ChatDoc :=
  { ownerId := none
    conversation := []
    username := none
    useremail := none
    userphone := none
    lastSeen := none }

/-- `updateOne({userId}, update, {upsert: true})` on `chats`: apply the
update to the existing document, or to a fresh `$setOnInsert` document. -/
def chatsUpsert (db : ChatsDb) (uid : String) (f : ChatDoc → ChatDoc) :
    ChatsDb :=
  match alookup db uid with
  | some d => aupsert db uid (f d)
  | none => aupsert db uid (f emptyChatDoc)

/-- The empty `Meta` (`metadataBuffer.get(uid) || {}`). -/
def emptyMeta : Meta :=
  { username := none, useremail := none, userphone := none, ownerId := none }

/-- The stored user message object `{ from: 'user', text, ts }`
(index.js line 391). -/
def mkUserMsg (text : String) (now : Nat) : Msg :=
  { origin := Origin.user
    text := text
    ts := now
    userId := none
    ownerId := none
    username := none
    useremail := none
    userphone := none
    contextUsed := none
    sources := none
    error := false }

/-- The live payload forwarded to the owner (index.js lines 373-381):
`{ from: 'user', text, userId, ts, username, useremail, userphone }`. -/
def mkUserForwardMsg (uid text : String) (now : Nat) (meta : Meta) : Msg :=
  { origin := Origin.user
    text := text
    ts := now
    userId := some uid
    ownerId := none
    username := meta.username
    useremail := meta.useremail
    userphone := meta.userphone
    contextUsed := none
    sources := none
    error := false }

/-- The AI message object stored by `processUserMessage`
(aiChatHandler.js lines 177-183):
`{ from: 'ai', text, ts, contextUsed, sources }`. -/
def mkStoredAiMsg (r : AiResult) (now : Nat) : Msg :=
  { origin := Origin.ai
    text := r.response
    ts := now
    userId := none
    ownerId := none
    username := none
    useremail := none
    userphone := none
    contextUsed := some r.contextUsed
    sources := some r.sources
    error := false }

/-- The AI response object returned by `processUserMessage`
(aiChatHandler.js lines 193-200):
`{ from: 'ai', text, userId, ts, contextUsed, sources }`. -/
def mkReturnedAiMsg (r : AiResult) (uid : String) (now : Nat) : Msg :=
  { origin := Origin.ai
    text := r.response
    ts := now
    userId := some uid
    ownerId := none
    username := none
    useremail := none
    userphone := none
    contextUsed := some r.contextUsed
    sources := some r.sources
    error := false }

/-- The apologetic fallback object returned from the `catch` branch of
`processUserMessage` (aiChatHandler.js lines 205-211). -/
def mkApologeticMsg (uid : String) (now : Nat) : Msg :=
  { origin := Origin.ai
    text := "I apologize, but I\x27m having trouble processing your message right now. Please try again or wait for our team to assist you."
    ts := now
    userId := some uid
    ownerId := none
    username := none
    useremail := none
    userphone := none
    contextUsed := none
    sources := none
    error := true }

/-- The stored owner message object (index.js line 181):
`{ from: 'owner', text, ts, ownerId }`. -/
def mkOwnerStoredMsg (text : String) (now : Nat) (ownerTag : String) : Msg :=
  { origin := Origin.owner
    text := text
    ts := now
    userId := none
    ownerId := some ownerTag
    username := none
    useremail := none
    userphone := none
    contextUsed := none
    sources := none
    error := false }

/-- The live owner message payload to the user or back to the owner
(index.js lines 175 and 210):
`{ from: 'owner', text, userId, ts, ownerId }`. -/
def mkOwnerLiveMsg (text uid : String) (now : Nat)
    (ownerTag : Option String) : Msg :=
  { origin := Origin.owner
    text := text
    ts := now
    userId := some uid
    ownerId := ownerTag
    username := none
    useremail := none
    userphone := none
    contextUsed := none
    sources := none
    error := false }

/-- `getConversationHistory(userId, limit)` (aiChatHandler.js lines 121-137):
the last `limit` messages of the stored conversation, `[]` when no chat
exists. -/
def getConversationHistory (chats : ChatsDb) (uid : String) (limit : Nat) :
    List Msg :=
  match alookup chats uid with
  | none => []
  | some c => lastN c.conversation limit

/-- The response-generation part of `processUserMessage`
(aiChatHandler.js lines 156-173): retrieval-augmented when an owner is
known, plain generation (wrapped with `contextUsed: false`, empty sources)
otherwise. -/
def aiResultFor (env : AiEnv) (chats : ChatsDb)
    (userId userMessage : String) (ownerId : Option String) :
    Except String AiResult :=
  let conversationHistory := getConversationHistory chats userId 10
  match ownerId with
  | some oid => getAiResponseWithContext env oid userMessage
      conversationHistory
  | none =>
      match generateAiResponse env userMessage [] conversationHistory
          none with
      | Except.ok r =>
          Except.ok
            { response := r
              contextUsed := false
              websiteUrl := none
              sources := []
              errorNote := none }
      | Except.error e => Except.error e

/-- `processUserMessage(userId, userMessage, ownerId)`
(aiChatHandler.js lines 146-213): check the AI state (`null` result when a
human has taken over); otherwise generate the response (`aiResultFor`),
store the AI message in the chat document, and return the response object.
Any error in the chain is caught and turned into the apologetic message,
which is returned but not stored here. -/
def processUserMessage (env : AiEnv) (aiDb : AiStateDb) (chats : ChatsDb)
    (userId userMessage : String) (ownerId : Option String) (now : Nat) :
    Option Msg × ChatsDb :=
  if shouldAiRespond aiDb userId = false then (none, chats)
  else
    match aiResultFor env chats userId userMessage ownerId with
    | Except.ok r =>
        let aiMessageObj := mkStoredAiMsg r now
        let chats2 := chatsUpsert chats userId (fun d =>
          { d with conversation := d.conversation ++ [aiMessageObj] })
        (some (mkReturnedAiMsg r userId now), chats2)
    | Except.error _ => (some (mkApologeticMsg userId now), chats)

/-! ### Session router (index.js socket handlers, AI-integrated version) -/

/-- What a socket emission carries: a chat message, a presence notification
(`user:connected` / `user:disconnected`), or a metadata update. -/
inductive Payload where
  | msg (m : Msg)
  | presence (userId : String)
  | metadataUpdated (userId : String) (meta : Meta)
deriving DecidableEq, Repr

/-- One `io.to(target).emit(event, payload)` call. -/
structure Emission where
  target : String
  event : String
  payload : Payload
deriving DecidableEq, Repr

/-- Global server state: the live-connection maps `users` and `owners`
(identity to socket id), the durable `chats` and `ai_chat_state` collections,
and the in-memory `messagesBuffer` / `metadataBuffer`. -/
structure ServerState where
  users : List (String × String)
  owners : List (String × String)
  chats : ChatsDb
  aiState : AiStateDb
  messagesBuffer : List (String × List Msg)
  metadataBuffer : List (String × Meta)

/-- `sendToOwnerOrBroadcast(ownerUserId, event, payload)`
(index.js lines 45-57): emit to the destination owner's registered socket
when one is connected; otherwise skip — no broadcast to other owners. -/
def sendToOwnerOrBroadcast (owners : List (String × String))
    (ownerUserId : Option String) (event : String) (payload : Payload) :
    List Emission :=
  match ownerUserId with
  | some oid =>
      match alookup owners oid with
      | some sid => [{ target := sid, event := event, payload := payload }]
      | none => []
  | none => []

/-- The owner-resolution chain used on user connect and user message
(index.js lines 232-244 and 332-345): the owner declared at connection time,
else the `metadataBuffer` entry, else the stored chat document. -/
def resolveTargetOwner (st : ServerState) (uid : String)
    (connOwner : Option String) : Option String :=
  match connOwner with
  | some o => some o
  | none =>
      match (alookup st.metadataBuffer uid).bind Meta.ownerId with
      | some o => some o
      | none => (alookup st.chats uid).bind ChatDoc.ownerId

/-- Append a message to a user's `messagesBuffer` entry
(`messagesBuffer.get(uid) || []` then push). -/
def bufferPush (buf : List (String × List Msg)) (uid : String) (m : Msg) :
    List (String × List Msg) :=
  aupsert buf uid ((alookup buf uid).getD [] ++ [m])

/-- The incremental persist used by the message handlers (index.js lines
186-197, 396-407 and 437-448): upsert the chat document, `$set` its
`ownerId` and `$push` the message onto the conversation. -/
def persistUserMsg (chats : ChatsDb) (uid : String) (tOid : Option String)
    (msgObj : Msg) : ChatsDb :=
  chatsUpsert chats uid (fun d =>
    { d with ownerId := tOid
             conversation := d.conversation ++ [msgObj] })

/-- The AI-integration epilogue of the user message handler
(index.js lines 410-456), given the result `pr` of `processUserMessage`:
when a response was produced, emit it to the user's socket and to the
resolved owner's socket, buffer it, and persist it (a second append, after
the one already performed inside `processUserMessage`); when `null`, nothing
further happens. -/
def userMessageFinish (st : ServerState) (uid : String)
    (targetOwnerId : Option String) (em1 : List Emission)
    (buf2 : List (String × List Msg)) (metaBuf2 : List (String × Meta))
    (pr : Option Msg × ChatsDb) : List Emission × ServerState :=
  let post : List Emission × ChatsDb × List (String × List Msg) :=
    match pr.1 with
    | some aiResponse =>
        let em2 :=
          match alookup st.users uid with
          | some sid =>
              [{ target := sid, event := "message",
                 payload := Payload.msg aiResponse }]
          | none => []
        let em3 :=
          match targetOwnerId with
          | some _ => sendToOwnerOrBroadcast st.owners targetOwnerId "message"
              (Payload.msg aiResponse)
          | none => []
        let buf3 := bufferPush buf2 uid aiResponse
        let chats3 := persistUserMsg pr.2 uid targetOwnerId aiResponse
        (em1 ++ em2 ++ em3, chats3, buf3)
    | none => (em1, pr.2, buf2)
  (post.1,
    { st with chats := post.2.1
              messagesBuffer := post.2.2
              metadataBuffer := metaBuf2 })

/-- The user `socket.on('message')` handler (index.js lines 328-459):
resolve the target owner, forward the message (with contact metadata, loaded
from the chat document into the buffer when the buffer holds none) to that
owner's socket only, buffer and persist the message with the resolved owner,
then run the AI integration (`processUserMessage` + `userMessageFinish`). -/
def userMessageStep (env : AiEnv) (st : ServerState) (uid : String)
    (connOwner : Option String) (text : String) (now : Nat) :
    List Emission × ServerState :=
  let targetOwnerId := resolveTargetOwner st uid connOwner
  let meta0 := (alookup st.metadataBuffer uid).getD emptyMeta
  let metaLoad : Meta × List (String × Meta) :=
    match targetOwnerId with
    | some _ =>
        if meta0.username = none ∧ meta0.useremail = none
            ∧ meta0.userphone = none then
          match alookup st.chats uid with
          | some doc =>
              let m : Meta :=
                { username := doc.username
                  useremail := doc.useremail
                  userphone := doc.userphone
                  ownerId := doc.ownerId }
              (m, aupsert st.metadataBuffer uid m)
          | none => (meta0, st.metadataBuffer)
        else (meta0, st.metadataBuffer)
    | none => (meta0, st.metadataBuffer)
  let em1 :=
    match targetOwnerId with
    | some _ => sendToOwnerOrBroadcast st.owners targetOwnerId "message"
        (Payload.msg (mkUserForwardMsg uid text now metaLoad.1))
    | none => []
  let msgObj := mkUserMsg text now
  let buf2 := bufferPush st.messagesBuffer uid msgObj
  let chats2 := persistUserMsg st.chats uid targetOwnerId msgObj
  let pr := processUserMessage env st.aiState chats2 uid text targetOwnerId now
  userMessageFinish st uid targetOwnerId em1 buf2 metaLoad.2 pr

/-- The owner `socket.on('message')` handler (index.js lines 158-214):
ignore payloads without a `userId`; deactivate the AI for that user
(`handleAdminMessage`), forward to the user's socket when connected, buffer
and persist the owner message (stamping `ownerId = ownerUserId || socket.id`
on both the message and the chat document), then echo the message to the
owning owner's socket (the sender's id, or the stored owner when the sender
is anonymous). -/
def ownerMessageStep (st : ServerState) (senderOwnerId : Option String)
    (senderSock : String) (payloadUid : Option String) (text : String)
    (now : Nat) : List Emission × ServerState :=
  match payloadUid with
  | none => ([], st)
  | some uid =>
      let aiState2 := handleAdminMessage st.aiState uid
      let ownerTag := senderOwnerId.getD senderSock
      let em1 :=
        match alookup st.users uid with
        | some sid =>
            [{ target := sid, event := "message",
               payload := Payload.msg (mkOwnerLiveMsg text uid now
                 (some ownerTag)) }]
        | none => []
      let msgObj := mkOwnerStoredMsg text now ownerTag
      let buf2 := bufferPush st.messagesBuffer uid msgObj
      let chats2 := persistUserMsg st.chats uid (some ownerTag) msgObj
      let targetOwnerId :=
        match senderOwnerId with
        | some o => some o
        | none => (alookup chats2 uid).bind ChatDoc.ownerId
      let em2 := sendToOwnerOrBroadcast st.owners targetOwnerId "message"
        (Payload.msg (mkOwnerLiveMsg text uid now targetOwnerId))
      (em1 ++ em2,
        { st with aiState := aiState2
                  chats := chats2
                  messagesBuffer := buf2 })

/-- The user-connection prologue (index.js lines 222-269): register the
socket, initialize the message buffer, resolve the owner (connection query,
metadata buffer, stored document) and, when one is resolved, persist it to
the chat document and notify that owner of the connection. -/
def userConnectStep (st : ServerState) (uid : String)
    (connOwner : Option String) (sockId : String) :
    List Emission × ServerState :=
  let users2 := aupsert st.users uid sockId
  let buf2 :=
    if (alookup st.messagesBuffer uid).isSome then st.messagesBuffer
    else aupsert st.messagesBuffer uid []
  let targetOwner := resolveTargetOwner st uid connOwner
  let chats2 :=
    match targetOwner with
    | some t => chatsUpsert st.chats uid (fun d => { d with ownerId := some t })
    | none => st.chats
  let em :=
    match targetOwner with
    | some t => sendToOwnerOrBroadcast st.owners (some t) "user:connected"
        (Payload.presence uid)
    | none => []
  (em, { st with users := users2, messagesBuffer := buf2, chats := chats2 })

/-- The backwards scan of the buffered conversation in the disconnect
handler (index.js lines 299-301): the `ownerId` of the latest buffered
owner-authored message carrying one. -/
def lastOwnerIdInConv (conv : List Msg) : Option String :=
  match conv with
  | [] => none
  | m :: rest =>
      match lastOwnerIdInConv rest with
      | some o => some o
      | none => if m.origin = Origin.owner then m.ownerId else none

/-- The user `socket.on('disconnect')` handler (index.js lines 271-325):
unregister the socket, notify the resolved owner (metadata buffer, else
stored document) of the disconnection, then persist metadata: the owner is
taken from the metadata buffer, else from the latest buffered owner message
— and `$set` on the chat document together with the contact fields and
`lastSeen`; finally drop both buffers. -/
def userDisconnectStep (st : ServerState) (uid : String) (now : Nat) :
    List Emission × ServerState :=
  let users2 := aerase st.users uid
  let notifyOwner :=
    match (alookup st.metadataBuffer uid).bind Meta.ownerId with
    | some o => some o
    | none => (alookup st.chats uid).bind ChatDoc.ownerId
  let em :=
    match notifyOwner with
    | some o => sendToOwnerOrBroadcast st.owners (some o) "user:disconnected"
        (Payload.presence uid)
    | none => []
  let conv := (alookup st.messagesBuffer uid).getD []
  let meta := (alookup st.metadataBuffer uid).getD emptyMeta
  let ownerId :=
    match meta.ownerId with
    | some o => some o
    | none => lastOwnerIdInConv conv
  let chats2 := chatsUpsert st.chats uid (fun d =>
    { d with ownerId := ownerId
             username := meta.username
             useremail := meta.useremail
             userphone := meta.userphone
             lastSeen := some now })
  (em,
    { st with users := users2
              chats := chats2
              messagesBuffer := aerase st.messagesBuffer uid
              metadataBuffer := aerase st.metadataBuffer uid })

/-! ### Projections and concrete states used by the theorems below -/

/-- The stored conversation of a user (empty when no chat document exists). -/
def convOf (db : ChatsDb) (uid : String) : List Msg :=
  ((alookup db uid).getD emptyChatDoc).conversation

/-- The texts of the user-authored messages of a conversation, in stored
order. -/
def userTexts (l : List Msg) : List String :=
  (l.filter (fun m => decide (m.origin = Origin.user))).map Msg.text

/-- Whether an emission carries a user-authored chat message (the live
forward of an inbound user message). -/
def isUserMsgEmission (e : Emission) : Bool :=
  match e.payload with
  | Payload.msg m => decide (m.origin = Origin.user)
  | _ => false

/-- A trivial external environment used to instantiate witnesses. -/
def envW : AiEnv :=
  { collections := []
    embed := fun _ => Except.ok [1]
    complete := fun _ => Except.ok "hello"
    websites := [] }

/-- The empty server state used to instantiate witnesses. -/
def stEmpty : ServerState :=
  { users := []
    owners := []
    chats := []
    aiState := []
    messagesBuffer := []
    metadataBuffer := [] }

/-- The state after an owner-authored message for `u1` has been recorded in
the empty state. -/
def stTaken : ServerState :=
  (ownerMessageStep stEmpty (some "o1") "sock1" (some "u1") "hi" 1).2

/-- A chat document assigned to `ownerA` with an empty conversation. -/
def docOwnerA : ChatDoc :=
  { ownerId := some "ownerA"
    conversation := []
    username := none
    useremail := none
    userphone := none
    lastSeen := none }

/-- A state where user `u1` is stored as assigned to `ownerA`, `u1` is
connected, the human has taken over `u1`, and the only connected owner is
`ownerB`. -/
def stC3 : ServerState :=
  { users := [("u1", "sockU")]
    owners := [("ownerB", "sockB")]
    chats := [("u1", docOwnerA)]
    aiState := [("u1", false)]
    messagesBuffer := [("u1", [])]
    metadataBuffer := [] }

/-- A state where user `u1` is stored as assigned to `ownerA` and nothing
is connected or buffered. -/
def stC4 : ServerState :=
  { users := []
    owners := []
    chats := [("u1", docOwnerA)]
    aiState := []
    messagesBuffer := []
    metadataBuffer := [] }

/-- An environment whose embedding service is down (non-not-found failure). -/
def envFail : AiEnv :=
  { collections := []
    embed := fun _ => Except.error "boom"
    complete := fun _ => Except.ok "hi"
    websites := [] }

/-! ### Basic lemmas about the association-list primitives -/

theorem alookup_aupsert_self {β : Type} (db : List (String × β)) (k : String)
    (v : β) : alookup (aupsert db k v) k = some v := by
  induction db with
  | nil => simp [aupsert, alookup]
  | cons hd tl ih =>
      by_cases h : hd.1 = k
      · simp [aupsert, alookup, h]
      · simp [aupsert, alookup, h, ih]

theorem aerase_of_alookup_none {β : Type} (db : List (String × β))
    (k : String) (h : alookup db k = none) : aerase db k = db := by
  induction db with
  | nil => simp [aerase]
  | cons hd tl ih =>
      by_cases hk : hd.1 = k
      · simp [alookup, hk] at h
      · simp [alookup, hk] at h
        simp [aerase, hk, ih h]

theorem chatsUpsert_alookup_self (db : ChatsDb) (uid : String)
    (f : ChatDoc → ChatDoc) :
    alookup (chatsUpsert db uid f) uid =
      some (f ((alookup db uid).getD emptyChatDoc)) := by
  unfold chatsUpsert
  cases h : alookup db uid <;> simp [h, alookup_aupsert_self]

theorem persistUserMsg_conv (chats : ChatsDb) (uid : String)
    (tOid : Option String) (m : Msg) :
    convOf (persistUserMsg chats uid tOid m) uid = convOf chats uid ++ [m] := by
  simp [persistUserMsg, convOf, chatsUpsert_alookup_self]

/-- The user-message handler never writes the AI takeover state: the only
mutations of `ai_chat_state` are `handleAdminMessage` (owner handler) and
`resetAiForUser` (administrative reset endpoint). -/
theorem userMessageStep_aiState (env : AiEnv) (st : ServerState)
    (uid : String) (connOwner : Option String) (text : String) (now : Nat) :
    ((userMessageStep env st uid connOwner text now).2).aiState =
      st.aiState := rfl

/-- Claim C1: for every user, the AI-authority query is `true` while no
owner-authored message has been recorded (absent state defaults to AI
active); after an owner-authored message is handled it is `false`, and stays
`false` across any number of subsequent user messages; after an explicit
reset it is `true` again. -/
theorem c1_ai_takeover_lifecycle (env : AiEnv) (st0 : ServerState)
    (u : String) (hfresh : alookup st0.aiState u = none) :
    shouldAiRespond st0.aiState u = true
    ∧ (∀ (st : ServerState) (so : Option String) (sock text : String)
        (now : Nat),
        shouldAiRespond
          ((ownerMessageStep st so sock (some u) text now).2).aiState u
          = false)
    ∧ (∀ (st : ServerState) (msgs : List (Option String × String × Nat)),
        shouldAiRespond st.aiState u = false →
        shouldAiRespond
          ((msgs.foldl
              (fun s m => (userMessageStep env s u m.1 m.2.1 m.2.2).2)
              st)).aiState u = false)
    ∧ (∀ (db : AiStateDb), shouldAiRespond (resetAiForUser db u) u = true) := by
  refine ⟨?_, ?_, ?_, ?_⟩
  · simp [shouldAiRespond, hfresh]
  · intro st so sock text now
    unfold ownerMessageStep
    simp [handleAdminMessage, deactivateAiForUser, setAiState,
      shouldAiRespond, alookup_aupsert_self]
  · intro st msgs
    induction msgs generalizing st with
    | nil => intro h; simpa using h
    | cons hd tl ih =>
        intro h
        simp only [List.foldl_cons]
        exact ih _ (by rw [userMessageStep_aiState]; exact h)
  · intro db
    simp [resetAiForUser, activateAiForUser, setAiState, shouldAiRespond,
      alookup_aupsert_self]

theorem c1_witness :
    alookup stEmpty.aiState "u1" = none
    ∧ shouldAiRespond stEmpty.aiState "u1" = true
    ∧ shouldAiRespond
        ((ownerMessageStep stEmpty (some "o1") "sock1" (some "u1") "hi"
          1).2).aiState "u1" = false
    ∧ shouldAiRespond
        (([((none : Option String), "hey", 2)].foldl
            (fun s m => (userMessageStep envW s "u1" m.1 m.2.1 m.2.2).2)
            stTaken)).aiState "u1" = false
    ∧ shouldAiRespond (resetAiForUser stTaken.aiState "u1") "u1" = true := by
  have h := c1_ai_takeover_lifecycle envW stEmpty "u1" rfl
  exact ⟨rfl, h.1, h.2.1 stEmpty (some "o1") "sock1" "hi" 1,
    h.2.2.1 stTaken [((none : Option String), "hey", 2)] (by decide),
    h.2.2.2 stTaken.aiState⟩

/-! ### Conversation projections and AI-integration lemmas -/

theorem userTexts_append (l t : List Msg) :
    userTexts (l ++ t) = userTexts l ++ userTexts t := by
  simp [userTexts]

theorem userTexts_append_ai (l t : List Msg)
    (h : ∀ m ∈ t, m.origin = Origin.ai) : userTexts (l ++ t) = userTexts l := by
  rw [userTexts_append]
  have : userTexts t = [] := by
    simp only [userTexts, List.map_eq_nil_iff, List.filter_eq_nil_iff]
    intro m hm
    simp [h m hm]
  simp [this]

/-- When a human has taken over (`shouldAiRespond = false`),
`processUserMessage` returns `null` and leaves the chats store untouched. -/
theorem processUserMessage_of_ai_off (env : AiEnv) (aiDb : AiStateDb)
    (chats : ChatsDb) (uid msg : String) (oid : Option String) (now : Nat)
    (h : shouldAiRespond aiDb uid = false) :
    processUserMessage env aiDb chats uid msg oid now = (none, chats) := by
  simp [processUserMessage, h]

/-- Every message returned by `processUserMessage` is AI-authored. -/
theorem processUserMessage_origin (env : AiEnv) (aiDb : AiStateDb)
    (chats : ChatsDb) (uid msg : String) (oid : Option String) (now : Nat)
    (m : Msg) (h : (processUserMessage env aiDb chats uid msg oid now).1
      = some m) : m.origin = Origin.ai := by
  unfold processUserMessage at h
  split at h
  · simp at h
  · split at h <;> simp_all [mkReturnedAiMsg, mkApologeticMsg] <;>
      simp [← h]

/-- `processUserMessage` only ever appends AI-authored messages to the
stored conversation. -/
theorem processUserMessage_conv (env : AiEnv) (aiDb : AiStateDb)
    (chats : ChatsDb) (uid msg : String) (oid : Option String) (now : Nat) :
    ∃ t, convOf (processUserMessage env aiDb chats uid msg oid now).2 uid
        = convOf chats uid ++ t
      ∧ ∀ m ∈ t, m.origin = Origin.ai := by
  unfold processUserMessage
  split
  · exact ⟨[], by simp, by simp⟩
  · split
    · rename_i r heq
      refine ⟨[mkStoredAiMsg r now], ?_, by simp [mkStoredAiMsg]⟩
      simp [convOf, chatsUpsert_alookup_self]
    · exact ⟨[], by simp, by simp⟩

/-- `userMessageFinish` only ever appends AI-authored messages beyond what
`processUserMessage` already stored. -/
theorem userMessageFinish_conv (st : ServerState) (uid : String)
    (tOid : Option String) (em1 : List Emission)
    (buf2 : List (String × List Msg)) (mb2 : List (String × Meta))
    (pr : Option Msg × ChatsDb)
    (hpr : ∀ m, pr.1 = some m → m.origin = Origin.ai) :
    ∃ t, convOf (userMessageFinish st uid tOid em1 buf2 mb2 pr).2.chats uid
        = convOf pr.2 uid ++ t
      ∧ ∀ m ∈ t, m.origin = Origin.ai := by
  unfold userMessageFinish
  cases h : pr.1 with
  | none => exact ⟨[], by simp [h], by simp⟩
  | some m =>
      refine ⟨[m], ?_, by simp [hpr m h]⟩
      simp [h, convOf, persistUserMsg, chatsUpsert_alookup_self]

/-- When `processUserMessage` returns `null`, `userMessageFinish` emits
nothing beyond `em1` and keeps the chats store as returned. -/
theorem userMessageFinish_none (st : ServerState) (uid : String)
    (tOid : Option String) (em1 : List Emission)
    (buf2 : List (String × List Msg)) (mb2 : List (String × Meta))
    (chats : ChatsDb) :
    userMessageFinish st uid tOid em1 buf2 mb2 (none, chats) =
      (em1,
        { st with chats := chats
                  messagesBuffer := buf2
                  metadataBuffer := mb2 }) := rfl

/-- Claim C2: while the AI state for a user is `false` (human takeover),
`processUserMessage` returns `null`, the user message handler emits no
AI-authored message, and the stored conversation receives exactly the user
message — no `from: 'ai'` entry. -/
theorem c2_ai_suppressed_after_takeover (env : AiEnv) (st : ServerState)
    (uid : String) (connOwner : Option String) (text : String) (now : Nat)
    (h : shouldAiRespond st.aiState uid = false) :
    (∀ (chats : ChatsDb) (oid : Option String) (t : Nat),
        processUserMessage env st.aiState chats uid text oid t
          = (none, chats))
    ∧ ((userMessageStep env st uid connOwner text now).1.all
        (fun e =>
          match e.payload with
          | Payload.msg m => decide (m.origin ≠ Origin.ai)
          | _ => true) = true)
    ∧ convOf (userMessageStep env st uid connOwner text now).2.chats uid
        = convOf st.chats uid ++ [mkUserMsg text now] := by
  have hpm : ∀ (chats : ChatsDb) (oid : Option String) (t : Nat),
      processUserMessage env st.aiState chats uid text oid t = (none, chats) :=
    fun chats oid t => processUserMessage_of_ai_off env st.aiState chats uid
      text oid t h
  refine ⟨hpm, ?_, ?_⟩
  · simp only [userMessageStep, hpm, userMessageFinish_none]
    cases hres : resolveTargetOwner st uid connOwner with
    | none => simp [hres]
    | some A =>
        simp only [hres]
        cases ho : alookup st.owners A <;>
          simp [sendToOwnerOrBroadcast, ho, mkUserForwardMsg]
  · simp only [userMessageStep, hpm, userMessageFinish_none]
    simp [convOf, persistUserMsg, chatsUpsert_alookup_self]

theorem c2_witness :
    shouldAiRespond stTaken.aiState "u1" = false
    ∧ processUserMessage envW stTaken.aiState [] "u1" "hello" none 9
        = (none, [])
    ∧ ((userMessageStep envW stTaken "u1" none "hello" 9).1.all
        (fun e =>
          match e.payload with
          | Payload.msg m => decide (m.origin ≠ Origin.ai)
          | _ => true) = true)
    ∧ convOf (userMessageStep envW stTaken "u1" none "hello" 9).2.chats "u1"
        = convOf stTaken.chats "u1" ++ [mkUserMsg "hello" 9] := by
  have h := c2_ai_suppressed_after_takeover envW stTaken "u1" none "hello" 9
    (by decide)
  exact ⟨by decide, h.1 [] none 9, h.2.1, h.2.2⟩

/-! ### Routing lemmas for the user message handler -/

/-- `userMessageStep` unfolded: there exist forwarded contact metadata and an
updated metadata buffer such that the handler is `userMessageFinish` applied
to the forward emissions, the buffered/persisted user message, and the
`processUserMessage` result. -/
theorem userMessageStep_spec (env : AiEnv) (st : ServerState) (uid : String)
    (connOwner : Option String) (text : String) (now : Nat) :
    ∃ (meta : Meta) (mb2 : List (String × Meta)),
      userMessageStep env st uid connOwner text now =
        userMessageFinish st uid (resolveTargetOwner st uid connOwner)
          (match resolveTargetOwner st uid connOwner with
           | some _ =>
               sendToOwnerOrBroadcast st.owners
                 (resolveTargetOwner st uid connOwner) "message"
                 (Payload.msg (mkUserForwardMsg uid text now meta))
           | none => [])
          (bufferPush st.messagesBuffer uid (mkUserMsg text now)) mb2
          (processUserMessage env st.aiState
            (persistUserMsg st.chats uid (resolveTargetOwner st uid connOwner)
              (mkUserMsg text now))
            uid text (resolveTargetOwner st uid connOwner) now) :=
  ⟨_, _, rfl⟩

theorem sendToOwner_filter_ai (owners : List (String × String))
    (target : Option String) (ev : String) (m : Msg)
    (hm : m.origin = Origin.ai) :
    (sendToOwnerOrBroadcast owners target ev (Payload.msg m)).filter
      isUserMsgEmission = [] := by
  unfold sendToOwnerOrBroadcast
  cases target with
  | none => simp
  | some o =>
      cases hov : alookup owners o <;> simp [hov, isUserMsgEmission, hm]

/-- Only the live forward of the user message itself is a user-authored
emission: the AI epilogue adds none. -/
theorem userMessageFinish_filter_user (st : ServerState) (uid : String)
    (tOid : Option String) (em1 : List Emission)
    (buf2 : List (String × List Msg)) (mb2 : List (String × Meta))
    (pr : Option Msg × ChatsDb)
    (hpr : ∀ m, pr.1 = some m → m.origin = Origin.ai) :
    (userMessageFinish st uid tOid em1 buf2 mb2 pr).1.filter isUserMsgEmission
      = em1.filter isUserMsgEmission := by
  unfold userMessageFinish
  cases h : pr.1 with
  | none => simp
  | some m =>
      have hm := hpr m h
      simp only [h, List.filter_append]
      cases hu : alookup st.users uid <;> cases tOid <;>
        simp [isUserMsgEmission, hm, sendToOwner_filter_ai _ _ _ _ hm]

/-- The durable append of the user message happens unconditionally; any
further appends of the handler are AI-authored. -/
theorem userMessageStep_conv (env : AiEnv) (st : ServerState) (uid : String)
    (connOwner : Option String) (text : String) (now : Nat) :
    ∃ t, convOf (userMessageStep env st uid connOwner text now).2.chats uid
        = convOf st.chats uid ++ mkUserMsg text now :: t
      ∧ ∀ m ∈ t, m.origin = Origin.ai := by
  obtain ⟨meta, mb2, hstep⟩ := userMessageStep_spec env st uid connOwner text
    now
  rw [hstep]
  have horigin : ∀ m,
      (processUserMessage env st.aiState
        (persistUserMsg st.chats uid (resolveTargetOwner st uid connOwner)
          (mkUserMsg text now))
        uid text (resolveTargetOwner st uid connOwner) now).1 = some m →
      m.origin = Origin.ai :=
    fun m hm => processUserMessage_origin _ _ _ _ _ _ _ _ hm
  obtain ⟨t3, h3, ht3⟩ := userMessageFinish_conv st uid
    (resolveTargetOwner st uid connOwner)
    (match resolveTargetOwner st uid connOwner with
     | some _ =>
         sendToOwnerOrBroadcast st.owners
           (resolveTargetOwner st uid connOwner) "message"
           (Payload.msg (mkUserForwardMsg uid text now meta))
     | none => [])
    (bufferPush st.messagesBuffer uid (mkUserMsg text now)) mb2
    (processUserMessage env st.aiState
      (persistUserMsg st.chats uid (resolveTargetOwner st uid connOwner)
        (mkUserMsg text now))
      uid text (resolveTargetOwner st uid connOwner) now) horigin
  obtain ⟨t2, h2, ht2⟩ := processUserMessage_conv env st.aiState
    (persistUserMsg st.chats uid (resolveTargetOwner st uid connOwner)
      (mkUserMsg text now))
    uid text (resolveTargetOwner st uid connOwner) now
  refine ⟨t2 ++ t3, ?_, ?_⟩
  · rw [h3, h2, persistUserMsg_conv]
    simp
  · intro m hm
    rcases List.mem_append.mp hm with h | h
    · exact ht2 m h
    · exact ht3 m h

/-- Claim C3: a user message resolved to destination owner `A` is forwarded
live only to the channel registered for `A`; it is never emitted to a
channel registered under a different owner; and when `A` has no connected
channel there is no live user-message delivery at all while the durable
append still occurs. -/
theorem c3_no_crosstalk (env : AiEnv) (st : ServerState) (uid : String)
    (connOwner : Option String) (text : String) (now : Nat) (A : String)
    (hres : resolveTargetOwner st uid connOwner = some A) :
    (((userMessageStep env st uid connOwner text now).1.filter
        isUserMsgEmission).all
        (fun e => decide (alookup st.owners A = some e.target)) = true)
    ∧ (∀ B sidB, alookup st.owners B = some sidB →
        ¬alookup st.owners A = some sidB →
        ((userMessageStep env st uid connOwner text now).1.filter
            isUserMsgEmission).all
          (fun e => decide (¬e.target = sidB)) = true)
    ∧ (alookup st.owners A = none →
        ((userMessageStep env st uid connOwner text now).1.filter
            isUserMsgEmission = [])
        ∧ ∃ tail,
            convOf (userMessageStep env st uid connOwner text now).2.chats uid
              = convOf st.chats uid ++ mkUserMsg text now :: tail) := by
  obtain ⟨meta, mb2, hstep⟩ := userMessageStep_spec env st uid connOwner text
    now
  have horigin : ∀ m,
      (processUserMessage env st.aiState
        (persistUserMsg st.chats uid (resolveTargetOwner st uid connOwner)
          (mkUserMsg text now))
        uid text (resolveTargetOwner st uid connOwner) now).1 = some m →
      m.origin = Origin.ai :=
    fun m hm => processUserMessage_origin _ _ _ _ _ _ _ _ hm
  have hfilter : (userMessageStep env st uid connOwner text now).1.filter
      isUserMsgEmission
      = (sendToOwnerOrBroadcast st.owners (some A) "message"
          (Payload.msg (mkUserForwardMsg uid text now meta))).filter
        isUserMsgEmission := by
    rw [hstep, userMessageFinish_filter_user st uid _ _ _ _ _ horigin]
    simp only [hres]
  refine ⟨?_, ?_, ?_⟩
  · rw [hfilter]
    unfold sendToOwnerOrBroadcast
    cases ho : alookup st.owners A <;>
      simp [isUserMsgEmission, mkUserForwardMsg, ho]
  · intro B sidB hB hAB
    rw [hfilter]
    unfold sendToOwnerOrBroadcast
    cases ho : alookup st.owners A with
    | none => simp [ho]
    | some sid =>
        rw [ho] at hAB
        simp only [Option.some.injEq] at hAB
        simp [ho, isUserMsgEmission, mkUserForwardMsg, hAB]
  · intro ho
    constructor
    · rw [hfilter]
      simp [sendToOwnerOrBroadcast, ho]
    · obtain ⟨t, hconv, _⟩ := userMessageStep_conv env st uid connOwner text
        now
      exact ⟨t, hconv⟩

theorem c3_witness :
    resolveTargetOwner stC3 "u1" none = some "ownerA"
    ∧ (((userMessageStep envW stC3 "u1" none "yo" 4).1.filter
        isUserMsgEmission).all
        (fun e => decide (alookup stC3.owners "ownerA" = some e.target))
        = true)
    ∧ (((userMessageStep envW stC3 "u1" none "yo" 4).1.filter
        isUserMsgEmission).all (fun e => decide (¬e.target = "sockB")) = true)
    ∧ ((userMessageStep envW stC3 "u1" none "yo" 4).1.filter
        isUserMsgEmission = [])
    ∧ (∃ tail,
        convOf (userMessageStep envW stC3 "u1" none "yo" 4).2.chats "u1"
          = convOf stC3.chats "u1" ++ mkUserMsg "yo" 4 :: tail) := by
  have h := c3_no_crosstalk envW stC3 "u1" none "yo" 4 "ownerA" (by decide)
  exact ⟨by decide, h.1,
    h.2.1 "ownerB" "sockB" (by decide) (by decide),
    (h.2.2 (by decide)).1, (h.2.2 (by decide)).2⟩

/-- Claim C4: the spec requires the stored owner assignment to be sticky,
and connect and message handlers indeed re-persist the stored owner; but the
disconnect handler resolves the owner only from the in-memory buffers (no
fallback to the stored document, index.js lines 296-316), so a user with a
stored owner who connects and disconnects without activity gets `ownerId`
overwritten with `null`.  This theorem evaluates that failing scenario. -/
theorem c4_disconnect_clobbers_owner :
    ((alookup stC4.chats "u1").bind ChatDoc.ownerId = some "ownerA")
    ∧ ((alookup (userConnectStep stC4 "u1" none "sockU").2.chats "u1").bind
        ChatDoc.ownerId = some "ownerA")
    ∧ ((alookup
        (userDisconnectStep (userConnectStep stC4 "u1" none "sockU").2 "u1"
          6).2.chats "u1").bind ChatDoc.ownerId = none) := by
  decide

/-- Each user message appends exactly its text to the stored user-authored
conversation, whatever the AI integration does. -/
theorem userMessageStep_userTexts (env : AiEnv) (st : ServerState)
    (uid : String) (connOwner : Option String) (text : String) (now : Nat) :
    userTexts (convOf (userMessageStep env st uid connOwner text now).2.chats
        uid)
      = userTexts (convOf st.chats uid) ++ [text] := by
  obtain ⟨t, hconv, ht⟩ := userMessageStep_conv env st uid connOwner text now
  rw [hconv, show mkUserMsg text now :: t = [mkUserMsg text now] ++ t from
    rfl, ← List.append_assoc, userTexts_append_ai _ t ht, userTexts_append]
  simp [userTexts, mkUserMsg]

/-- Claim C5: for a single user, the texts of the user-authored messages in
the stored conversation after any sequence of inbound messages are exactly
the previously stored ones followed by the new ones in arrival order — no
reordering, no loss (handlers modelled as atomic per the single event-loop
design). -/
theorem c5_arrival_order (env : AiEnv) (st : ServerState) (uid : String)
    (connOwner : Option String) (msgs : List (String × Nat)) :
    userTexts (convOf
        (msgs.foldl
          (fun s p => (userMessageStep env s uid connOwner p.1 p.2).2)
          st).chats uid)
      = userTexts (convOf st.chats uid) ++ msgs.map Prod.fst := by
  induction msgs generalizing st with
  | nil => simp
  | cons hd tl ih =>
      simp only [List.foldl_cons, List.map_cons]
      rw [ih, userMessageStep_userTexts]
      simp

/-! ### Knowledge store deletion and retrieval fallback -/

/-- Claim C6: deleting the knowledge namespace of an owner who has none is a
no-op success — the provider reports a non-error `result: false` for a
missing collection and `deleteOwnerResources` returns its success object
with the store unchanged. -/
theorem c6_delete_missing_namespace (st : QdrantSt) (ownerId : String)
    (h : alookup st (collName ownerId) = none) :
    deleteOwnerResources st ownerId =
      Except.ok ({ success := true, collectionName := collName ownerId },
        st) := by
  unfold deleteOwnerResources qdrantDeleteCollection
  rw [aerase_of_alookup_none _ _ h]

theorem c6_witness :
    alookup ([] : QdrantSt) (collName "o1") = none
    ∧ deleteOwnerResources ([] : QdrantSt) "o1" =
        Except.ok ({ success := true, collectionName := collName "o1" },
          ([] : QdrantSt)) :=
  ⟨rfl, c6_delete_missing_namespace [] "o1" rfl⟩

/-- The Qdrant missing-collection error message contains `Not found`. -/
theorem containsNotFound_qdrant (s1 s2 : String) :
    containsNotFound ("Not found: Collection " ++ s1 ++ s2) = true := by
  simp only [containsNotFound, decide_eq_true_eq]
  have h : ("Not found: Collection " ++ s1 ++ s2).toList
      = "Not found".toList
        ++ (": Collection ".toList ++ (s1.toList ++ s2.toList)) := by
    have hsplit : ("Not found: Collection ").toList
        = "Not found".toList ++ ": Collection ".toList := by decide
    simp [String.toList, String.data_append, hsplit]
  rw [h]
  exact (List.prefix_append _ _).isInfix

/-- Claim C8: for an owner whose knowledge namespace is missing or empty,
`searchOwnerKnowledge` returns the empty list rather than an error, and
`getAiResponseWithContext` then reports `contextUsed = false` with no
sources while still returning the generated response text. -/
theorem c8_empty_knowledge (env : AiEnv) (ownerId userMessage : String)
    (history : List Msg) (v : List Int)
    (hemb : env.embed userMessage = Except.ok v)
    (hcoll : alookup env.collections (collName ownerId) = none
      ∨ alookup env.collections (collName ownerId) = some []) :
    searchOwnerKnowledge env ownerId userMessage 3 = Except.ok []
    ∧ (∀ t, generateAiResponse env userMessage [] history
          (getOwnerWebsite env ownerId) = Except.ok t →
        getAiResponseWithContext env ownerId userMessage history =
          Except.ok
            { response := t
              contextUsed := false
              websiteUrl := getOwnerWebsite env ownerId
              sources := []
              errorNote := none }) := by
  have hsearch : searchOwnerKnowledge env ownerId userMessage 3
      = Except.ok [] := by
    unfold searchOwnerKnowledge searchOwnerKnowledgeBody qdrantSearch
    rcases hcoll with hc | hc
    · simp [hemb, hc, containsNotFound_qdrant]
    · simp [hemb, hc]
  refine ⟨hsearch, ?_⟩
  intro t ht
  unfold getAiResponseWithContext
  simp [hsearch, ht]

theorem c8_witness :
    envW.embed "hours" = Except.ok [1]
    ∧ alookup envW.collections (collName "o1") = none
    ∧ searchOwnerKnowledge envW "o1" "hours" 3 = Except.ok []
    ∧ generateAiResponse envW "hours" [] [] (getOwnerWebsite envW "o1")
        = Except.ok "hello"
    ∧ getAiResponseWithContext envW "o1" "hours" [] =
        Except.ok
          { response := "hello"
            contextUsed := false
            websiteUrl := getOwnerWebsite envW "o1"
            sources := []
            errorNote := none } := by
  have h := c8_empty_knowledge envW "o1" "hours" [] [1] rfl (Or.inl rfl)
  exact ⟨rfl, rfl, h.1, rfl, h.2 "hello" rfl⟩

/-- Claim C9: a retrieval-path failure (any search error other than the
not-found-as-empty case) is not propagated: generation is retried with empty
context and the result carries `contextUsed = false`, no sources and the
explanatory error note; the caller sees an error only when the fallback
generation itself also fails. -/
theorem c9_retrieval_fallback (env : AiEnv) (ownerId userMessage : String)
    (history : List Msg) (e : String)
    (hs : searchOwnerKnowledge env ownerId userMessage 3 = Except.error e) :
    (∀ t, generateAiResponse env userMessage [] history
          (getOwnerWebsite env ownerId) = Except.ok t →
        getAiResponseWithContext env ownerId userMessage history =
          Except.ok
            { response := t
              contextUsed := false
              websiteUrl := getOwnerWebsite env ownerId
              sources := []
              errorNote := some
                "Could not access knowledge base, using general AI knowledge" })
    ∧ (∀ e2, generateAiResponse env userMessage [] history
          (getOwnerWebsite env ownerId) = Except.error e2 →
        getAiResponseWithContext env ownerId userMessage history =
          Except.error "Failed to generate AI response") := by
  constructor <;> intro t ht <;> unfold getAiResponseWithContext aiFallback <;>
    simp [hs, ht]

theorem c9_witness :
    searchOwnerKnowledge envFail "o1" "q" 3 = Except.error "boom"
    ∧ generateAiResponse envFail "q" [] [] (getOwnerWebsite envFail "o1")
        = Except.ok "hi"
    ∧ getAiResponseWithContext envFail "o1" "q" [] =
        Except.ok
          { response := "hi"
            contextUsed := false
            websiteUrl := getOwnerWebsite envFail "o1"
            sources := []
            errorNote := some
              "Could not access knowledge base, using general AI knowledge" } := by
  have h := c9_retrieval_fallback envFail "o1" "q" [] "boom" rfl
  exact ⟨rfl, rfl, h.1 "hi" rfl⟩

/-! ### Chunking: termination and the closed form of the loop -/

theorem numChunksFrom_step (L step start : Nat) (hstep : 0 < step)
    (h : start < L) :
    numChunksFrom L step start = numChunksFrom L step (start + step) + 1 := by
  unfold numChunksFrom
  by_cases h2 : start + step < L
  · rw [if_pos h, if_pos h2]
    have e1 : L - start - 1 = (L - (start + step) - 1) + step := by omega
    rw [e1, Nat.add_div_right _ hstep]
  · rw [if_pos h, if_neg h2]
    have hlt : L - start - 1 < step := by omega
    rw [Nat.div_eq_of_lt hlt]

/-- Closed form of the chunking loop: with a positive step and enough fuel,
it terminates and produces one slice per loop position. -/
theorem splitChunksFuel_eq {α : Type} (text : List α) (cs ov : Nat)
    (h : ov < cs) :
    ∀ fuel start, text.length - start ≤ fuel →
      splitChunksFuel text cs ov fuel start =
        some ((List.range (numChunksFrom text.length (cs - ov) start)).map
          (fun i => chunkAt text cs (start + i * (cs - ov)))) := by
  intro fuel
  induction fuel with
  | zero =>
      intro start hs
      have hge : ¬start < text.length := by omega
      simp [splitChunksFuel, hge, numChunksFrom]
  | succ n ih =>
      intro start hs
      by_cases hlt : start < text.length
      · have hstep : 0 < cs - ov := by omega
        have hrec := ih (start + (cs - ov)) (by omega)
        simp only [splitChunksFuel, hlt, if_true, hrec]
        refine congrArg some ?_
        rw [numChunksFrom_step text.length (cs - ov) start hstep hlt,
          List.range_succ_eq_map, List.map_cons, List.map_map]
        congr 1
        · simp [chunkAt]
        · apply List.map_congr_left
          intro i _
          simp only [Function.comp]
          congr 1
          rw [Nat.succ_mul]
          ring
      · simp [splitChunksFuel, hlt, numChunksFrom]

theorem splitTextIntoChunks_eq {α : Type} (text : List α) (cs ov : Nat)
    (h : ov < cs) :
    splitTextIntoChunks text cs ov =
      (List.range (numChunksFrom text.length (cs - ov) 0)).map
        (fun i => chunkAt text cs (i * (cs - ov))) := by
  unfold splitTextIntoChunks
  rw [splitChunksFuel_eq text cs ov h (text.length + 1) 0 (by omega)]
  simp

theorem chunkAt_length {α : Type} (text : List α) (cs s : Nat) :
    (chunkAt text cs s).length = min cs (text.length - s) := by
  simp [chunkAt, jsSlice, List.length_take, List.length_drop]
  omega

theorem getD_range_map {α : Type} (N i : Nat) (f : Nat → List α)
    (hi : i < N) : ((List.range N).map f).getD i [] = f i := by
  rw [List.getD_eq_getElem?_getD]
  simp [List.getElem?_map, List.getElem?_range, hi]

/-- Claim C7 (amended): for non-empty input with window 1000 and overlap
200, the chunks are the slices at starts `800 * i`; every character index is
covered with no gaps; consecutive chunks overlap by
`min 200 (L - 800 * (i + 1))` — exactly 200 except possibly the final pair,
which still overlaps positively; and chunk lengths are
`min 1000 (L - 800 * i)` (so only trailing chunks are shorter than the
window). -/
theorem c7_chunk_coverage {α : Type} (text : List α) (htext : text ≠ []) :
    ((splitTextIntoChunks text 1000 200).length
        = (text.length - 1) / 800 + 1)
    ∧ (∀ i, i < (splitTextIntoChunks text 1000 200).length →
        (splitTextIntoChunks text 1000 200).getD i []
          = jsSlice text (i * 800) (min (i * 800 + 1000) text.length))
    ∧ (∀ i, i < (splitTextIntoChunks text 1000 200).length →
        ((splitTextIntoChunks text 1000 200).getD i []).length
          = min 1000 (text.length - i * 800))
    ∧ (∀ j, j < text.length →
        ∃ i, i < (splitTextIntoChunks text 1000 200).length
          ∧ i * 800 ≤ j
          ∧ j < i * 800
              + ((splitTextIntoChunks text 1000 200).getD i []).length)
    ∧ (∀ i, i + 1 < (splitTextIntoChunks text 1000 200).length →
        (i + 1) * 800 < i * 800
            + ((splitTextIntoChunks text 1000 200).getD i []).length
        ∧ i * 800 + ((splitTextIntoChunks text 1000 200).getD i []).length
              - (i + 1) * 800
            = min 200 (text.length - (i + 1) * 800)) := by
  have hL : 0 < text.length := List.length_pos.mpr htext
  have heq := splitTextIntoChunks_eq text 1000 200 (by omega)
  norm_num at heq
  have hN : numChunksFrom text.length 800 0 = (text.length - 1) / 800 + 1 := by
    simp [numChunksFrom, hL]
  have hlen : (splitTextIntoChunks text 1000 200).length
      = (text.length - 1) / 800 + 1 := by
    rw [heq, List.length_map, List.length_range, hN]
  have hget : ∀ i, i < (text.length - 1) / 800 + 1 →
      (splitTextIntoChunks text 1000 200).getD i []
        = chunkAt text 1000 (i * 800) := by
    intro i hi
    rw [heq, hN]
    exact getD_range_map _ _ _ hi
  refine ⟨hlen, ?_, ?_, ?_, ?_⟩
  · intro i hi
    rw [hlen] at hi
    rw [hget i hi]
    rfl
  · intro i hi
    rw [hlen] at hi
    rw [hget i hi, chunkAt_length]
  · intro j hj
    have hin : j / 800 < (text.length - 1) / 800 + 1 := by
      have := Nat.div_le_div_right (c := 800) (by omega : j ≤ text.length - 1)
      omega
    refine ⟨j / 800, by rw [hlen]; exact hin, ?_, ?_⟩
    · have := Nat.div_mul_le_self j 800
      omega
    · have hmod := Nat.div_add_mod j 800
      have hm : j % 800 < 800 := Nat.mod_lt _ (by norm_num)
      rw [hget (j / 800) hin, chunkAt_length]
      omega
  · intro i hi
    rw [hlen] at hi
    have hib : (i + 1) * 800 ≤ text.length - 1 :=
      (Nat.le_div_iff_mul_le (by norm_num)).mp (by omega)
    have hii : i < (text.length - 1) / 800 + 1 := by omega
    rw [hget i hii, chunkAt_length]
    have hmul : (i + 1) * 800 = i * 800 + 800 := by ring
    constructor <;> omega

set_option maxRecDepth 10000 in
theorem c7_witness :
    (List.range 1700 : List Nat) ≠ []
    ∧ (splitTextIntoChunks (List.range 1700) 1000 200).length = 3
    ∧ (∃ i, i < (splitTextIntoChunks (List.range 1700) 1000 200).length
        ∧ i * 800 ≤ 1650
        ∧ 1650 < i * 800
            + ((splitTextIntoChunks (List.range 1700) 1000 200).getD i
                []).length)
    ∧ ((1 + 1) * 800 < 1 * 800
          + ((splitTextIntoChunks (List.range 1700) 1000 200).getD 1
              []).length
        ∧ 1 * 800
            + ((splitTextIntoChunks (List.range 1700) 1000 200).getD 1
                []).length - (1 + 1) * 800
          = min 200 ((List.range 1700).length - (1 + 1) * 800)) := by
  have h := c7_chunk_coverage (List.range 1700) (by simp)
  have hl2 : (1 : Nat) + 1
      < (splitTextIntoChunks (List.range 1700) 1000 200).length := by
    rw [h.1]; decide
  exact ⟨by simp, h.1.trans (by decide),
    h.2.2.2.1 1650 (by simp), h.2.2.2.2 1 hl2⟩

set_option maxRecDepth 10000 in
/-- Claim C7 as literally stated is false: for input length 801 the loop
produces two chunks, `[0, 801)` and `[800, 801)`, whose overlap is one
position, not 200 (and the non-final first chunk is shorter than the
window). -/
theorem c7_counterexample :
    (splitTextIntoChunks (List.range 801) 1000 200).length = 2
    ∧ ((splitTextIntoChunks (List.range 801) 1000 200).getD 0 []).length
        = 801
    ∧ ((splitTextIntoChunks (List.range 801) 1000 200).getD 1 []).length = 1
    ∧ ¬(0 * 800
          + ((splitTextIntoChunks (List.range 801) 1000 200).getD 0
              []).length - 1 * 800
        = 200) := by
  decide

/-- Claim C10: the chunking loop terminates whenever `overlap < chunkSize`
(fuel `length + 1` suffices since `start` strictly increases), returns the
empty chunk list on empty input, and never terminates when
`chunkSize <= overlap` on non-empty input (the start index does not
advance), so `chunkSize > overlap` is a required precondition. -/
theorem c10_termination {α : Type} (text : List α) (cs ov : Nat) :
    (ov < cs →
      (splitChunksFuel text cs ov (text.length + 1) 0).isSome = true)
    ∧ (∀ fuel, splitChunksFuel ([] : List α) cs ov fuel 0 = some [])
    ∧ (cs ≤ ov → text ≠ [] → ∀ fuel start, start < text.length →
        splitChunksFuel text cs ov fuel start = none) := by
  refine ⟨?_, ?_, ?_⟩
  · intro h
    rw [splitChunksFuel_eq text cs ov h (text.length + 1) 0 (by omega)]
    rfl
  · intro fuel
    cases fuel <;> simp [splitChunksFuel]
  · intro hcs htext fuel
    induction fuel with
    | zero =>
        intro start hs
        simp [splitChunksFuel, hs]
    | succ n ih =>
        intro start hs
        have hz : cs - ov = 0 := by omega
        simp [splitChunksFuel, hz, hs, ih start hs]

theorem c10_witness :
    ((splitChunksFuel (List.range 5) 3 1 6 0).isSome = true)
    ∧ (splitChunksFuel ([] : List Nat) 3 1 9 0 = some [])
    ∧ (splitChunksFuel (List.range 5) 3 3 7 0 = none) := by
  have h := c10_termination (List.range 5) 3 1
  have h2 := c10_termination (List.range 5) 3 3
  exact ⟨h.1 (by decide), h.2.1 9,
    h2.2.2 (by decide) (by decide) 7 0 (by decide)⟩


